import Mathlib

/-!
Verification of the `state-politics` CSV loading pipeline (`database.py`,
`postgres.py`).  Python strings are modelled as lists of characters, pandas
data frames as column-major tables of optional string cells (a `none` cell is
a pandas `NaN`), and the Postgres state as an association list from table
names to lists of rows.  The `constants.py` module (the `state_names` and
`state_abbreviations` dictionaries) is not part of the sources, so those maps
are taken as parameters of the functions that read them.
-/

namespace StatePolitics

/-- A Python `str`, modelled as its list of characters. -/
abbrev PyStr := List Char

/-- Turn a Lean string literal into the `PyStr` model. -/
def toL (s : String) : PyStr := s.toList

/-- The character with code point 91, an opening square bracket. -/
def lbrack : Char := Char.ofNat 91

/-- The character with code point 93, a closing square bracket. -/
def rbrack : Char := Char.ofNat 93

/-- The character with code point 123, an opening curly brace. -/
def lbrace : Char := Char.ofNat 123

/-- The character with code point 125, a closing curly brace. -/
def rbrace : Char := Char.ofNat 125

/-- The character with code point 39, a single quote. -/
def squote : Char := Char.ofNat 39

/-- Python `s.split(sep)` for a one-character separator `sep`: every
occurrence of the separator splits, empty pieces are kept, and the result is
never empty. -/
def pySplitChar (sep : Char) : PyStr → List PyStr
  | [] => [[]]
  | c :: rest =>
    match pySplitChar sep rest with
    | [] => [[]]
    | w :: ws => if c = sep then [] :: w :: ws else (c :: w) :: ws

/-- Python `sep.join(pieces)`. -/
def pyJoin (sep : PyStr) : List PyStr → PyStr
  | [] => []
  | [x] => x
  | x :: y :: rest => x ++ sep ++ pyJoin sep (y :: rest)

/-- Python `s.replace(a, b)` for a one-character pattern `a` (the replacement
`b` may be empty, which deletes every occurrence of `a`). -/
def pyReplace1 (a : Char) (b : PyStr) : PyStr → PyStr
  | [] => []
  | c :: rest => (if c = a then b else [c]) ++ pyReplace1 a b rest

/-- Python `s.lower()`. -/
def pyLower (s : PyStr) : PyStr := s.map Char.toLower

/-- Python `s.upper()`. -/
def pyUpper (s : PyStr) : PyStr := s.map Char.toUpper

/-- Python `s.capitalize()`. -/
def pyCapitalize : PyStr → PyStr
  | [] => []
  | c :: rest => Char.toUpper c :: pyLower rest

/-- Whitespace characters stripped by Python `int()`. -/
def isPySpace (c : Char) : Bool :=
  (c = ' ') || (c = '\t') || (c = '\n') || (c = '\r') ||
    (c = Char.ofNat 11) || (c = Char.ofNat 12)

/-- Strip leading and trailing whitespace, as Python `int()` does before
parsing. -/
def pyStrip (s : PyStr) : PyStr :=
  ((s.dropWhile isPySpace).reverse.dropWhile isPySpace).reverse

/-- Continue parsing a Python decimal integer literal after at least one
digit has been read: further digits, with single underscores allowed between
digits. -/
def pyDigitsAux : Nat → PyStr → Option Nat
  | acc, [] => some acc
  | acc, c :: rest =>
    if c.isDigit then pyDigitsAux (10 * acc + (c.toNat - 48)) rest
    else if c = '_' then
      match rest with
      | [] => none
      | d :: rest2 =>
        if d.isDigit then pyDigitsAux (10 * acc + (d.toNat - 48)) rest2 else none
    else none

/-- Parse a nonempty run of decimal digits (with Python's underscore rule). -/
def pyDigits : PyStr → Option Nat
  | [] => none
  | c :: rest => if c.isDigit then pyDigitsAux (c.toNat - 48) rest else none

/-- Python `int(s)`: strip whitespace, optional sign, decimal digits;
`none` models the `ValueError` raised on anything else. -/
def pyInt (s : PyStr) : Option Int :=
  match pyStrip s with
  | '+' :: rest => (pyDigits rest).map (fun n => (n : Int))
  | '-' :: rest => (pyDigits rest).map (fun n => -(n : Int))
  | rest => (pyDigits rest).map (fun n => (n : Int))

/-- The Python exceptions the pipeline can raise. -/
inductive PyError
  | keyError (k : PyStr)
  | indexError
  | valueError
  | copyError
  | connectionError
deriving DecidableEq, Repr

/-- A pandas cell loaded with `dtype=str`: either a string or `NaN`. -/
abbrev Cell := Option PyStr

/-- A pandas data frame loaded with `dtype=str`: named columns of cells,
in column order. -/
structure DataFrame where
  cols : List (PyStr × List Cell)
deriving DecidableEq, Repr

/-- `database.py`, `populate_database`: the test `column_name[-2:] == "id"`
selecting the columns whose foreign-key prefix is stripped. -/
def idColumn (name : PyStr) : Bool := (toL "id").isSuffixOf name

/-- `database.py`, `populate_database`: the test
`"classification" in column_name`. -/
def classificationColumn (name : PyStr) : Bool :=
  decide (List.IsInfix (toL "classification") name)

/-- `table[column_name].str.split("/").str[-1]` applied to one string value:
keep the final `/`-separated segment. -/
def cleanIdStr (s : PyStr) : PyStr := (pySplitChar '/' s).getLastD []

/-- The three chained `str.replace` calls of the classification branch
applied to one string value: `[` to an opening brace, `]` to a closing brace,
and single quotes deleted. -/
def cleanClsStr (s : PyStr) : PyStr :=
  pyReplace1 squote [] (pyReplace1 rbrack [rbrace] (pyReplace1 lbrack [lbrace] s))

/-- One iteration of the cleaning loop of `populate_database`, acting on a
single named column. -/
def cleanColumn (name : PyStr) (col : List Cell) : List Cell :=
  if idColumn name then col.map (Option.map cleanIdStr)
  else if classificationColumn name then col.map (Option.map cleanClsStr)
  else col

/-- The whole-file cleaning loop of `populate_database` (lines 185-198),
with the pandas column operations evaluated elementwise. -/
def clean (t : DataFrame) : DataFrame :=
  ⟨t.cols.map (fun p => (p.1, cleanColumn p.1 p.2))⟩

/-- The same cleaning loop with the pandas column operations abstracted as
fallible calls (`sp` for the id-column split, `rp` for one `str.replace`),
so that the exception structure of the source is visible: the id branch is
wrapped in `try ... except` (a failure is printed and the column kept as it
was), while the three `replace` calls of the classification branch are not
protected and their failure aborts the loop. -/
def cleanColsE (sp : List Cell → Except PyError (List Cell))
    (rp : Char → PyStr → List Cell → Except PyError (List Cell)) :
    List (PyStr × List Cell) → Except PyError (List (PyStr × List Cell))
  | [] => .ok []
  | p :: rest =>
    if idColumn p.1 then
      match sp p.2 with
      | .ok col => (cleanColsE sp rp rest).map (fun qs => (p.1, col) :: qs)
      | .error _ => (cleanColsE sp rp rest).map (fun qs => (p.1, p.2) :: qs)
    else if classificationColumn p.1 then
      (rp lbrack [lbrace] p.2).bind (fun c1 =>
        (rp rbrack [rbrace] c1).bind (fun c2 =>
          (rp squote [] c2).bind (fun c3 =>
            (cleanColsE sp rp rest).map (fun qs => (p.1, c3) :: qs))))
    else (cleanColsE sp rp rest).map (fun qs => (p.1, p.2) :: qs)

/-- The infallible id-column operation: split every cell on `/` and keep the
last segment (`NaN` cells stay `NaN`). -/
def splitLastCol (col : List Cell) : Except PyError (List Cell) :=
  .ok (col.map (Option.map cleanIdStr))

/-- The infallible single-replacement column operation (`NaN` cells stay
`NaN`). -/
def replaceCol (a : Char) (b : PyStr) (col : List Cell) :
    Except PyError (List Cell) :=
  .ok (col.map (Option.map (pyReplace1 a b)))

/-- The string whose Python `int(...)` conversion yields the session number
in `tokenize_data_file`: the part of the session token before a hyphen (when
one is present), with its final two characters stripped
(`session.split("-")[0]` and `session[:-2]`). -/
def sessionNumberStr (session0 : PyStr) : PyStr :=
  let session1 :=
    if session0.contains '-' then (pySplitChar '-' session0).headD [] else session0
  session1.take (session1.length - 2)

/-- `database.py`, `tokenize_data_file` (lines 324-336): split an openstates
bulk-data csv file name into the state name, session number, special-session
flag and csv type.  The `state_names` dictionary lives in the absent
`constants.py`, so it is a parameter. -/
def tokenize_data_file (state_names : PyStr → Option PyStr) (data_file : PyStr) :
    Except PyError (PyStr × Int × Bool × PyStr) :=
  let tokens := pySplitChar '_'
    ((pySplitChar '/' ((pySplitChar '.' data_file).headD [])).getLastD [])
  let csv_type := pyJoin ['_'] (tokens.drop 2)
  match state_names (tokens.headD []) with
  | none => .error (.keyError (tokens.headD []))
  | some nm =>
    let state := pyLower nm
    match tokens.get? 1 with
    | none => .error .indexError
    | some session0 =>
      let special := session0.contains '-'
      match pyInt (sessionNumberStr session0) with
      | none => .error .valueError
      | some session_number => .ok (state, session_number, special, csv_type)

/-- The `csv_type_to_schema` dictionary of `database.py` (lines 10-168),
reduced to the data the loader's behaviour depends on: for each of the
fourteen registered csv types, the ordered list of column names of its
`CREATE TABLE IF NOT EXISTS` statement (the primary key `id` always comes
first). -/
def csv_type_to_schema : List (PyStr × List PyStr) :=
  [(toL "bill_abstracts",
      [toL "id", toL "bill_id", toL "abstract", toL "note"]),
   (toL "bill_actions",
      [toL "id", toL "bill_id", toL "organization_id", toL "description",
       toL "date", toL "classification", toL "bill_order"]),
   (toL "bills",
      [toL "id", toL "identifier", toL "title", toL "classification",
       toL "subject", toL "session_identifier", toL "jurisdiction",
       toL "organization_classification"]),
   (toL "bill_document_links",
      [toL "id", toL "media_type", toL "url", toL "document_id"]),
   (toL "bill_documents",
      [toL "id", toL "bill_id", toL "note", toL "date",
       toL "classification", toL "extras"]),
   (toL "bill_sources",
      [toL "id", toL "note", toL "url", toL "bill_id"]),
   (toL "bill_sponsorships",
      [toL "id", toL "name", toL "entity_type", toL "organization_id",
       toL "person_id", toL "bill_id", toL "primary_sponsor",
       toL "classification"]),
   (toL "bill_version_links",
      [toL "id", toL "media_type", toL "url", toL "version_id"]),
   (toL "bill_versions",
      [toL "id", toL "bill_id", toL "note", toL "date",
       toL "classification", toL "extras"]),
   (toL "vote_counts",
      [toL "id", toL "vote_event_id", toL "option", toL "value"]),
   (toL "vote_people",
      [toL "id", toL "vote_event_id", toL "option", toL "voter_name",
       toL "voter_id", toL "note"]),
   (toL "vote_sources",
      [toL "id", toL "url", toL "note", toL "vote_event_id"]),
   (toL "votes",
      [toL "id", toL "identifier", toL "motion_text",
       toL "motion_classification", toL "start_date", toL "result",
       toL "organization_id", toL "bill_id", toL "bill_action_id",
       toL "jurisdiction", toL "session_identifier"]),
   (toL "people",
      [toL "id", toL "name", toL "current_party", toL "current_district",
       toL "current_chamber", toL "given_name", toL "family_name",
       toL "gender", toL "email", toL "biography", toL "birth_date",
       toL "death_date", toL "image", toL "links", toL "sources",
       toL "capitol_address", toL "capitol_voice", toL "capitol_fax",
       toL "district_address", toL "district_voice", toL "district_fax",
       toL "twitter", toL "youtube", toL "instagram", toL "facebook"])]

/-- Dictionary lookup in `csv_type_to_schema`; `none` models the `KeyError`
of `csv_type_to_schema[csv_type]`. -/
def schemaColumns (csv_type : PyStr) : Option (List PyStr) :=
  (csv_type_to_schema.find? (fun p => p.1 == csv_type)).map (fun p => p.2)

/-- A table's contents: a list of rows, each row a list of cells. -/
abbrev Table := List (List Cell)

/-- The Postgres database of one state: table name to contents. -/
abbrev DB := List (PyStr × Table)

/-- The primary-key value of a row: every registered table's first column is
its `id` primary key, and `COPY ... CSV HEADER` matches csv fields to table
columns positionally. -/
def rowKey (r : List Cell) : Cell := r.headD none

/-- Whether a table already contains a row with the given primary key. -/
def hasKey (tbl : Table) (k : Cell) : Bool := tbl.any (fun r => rowKey r == k)

/-- Primary keys pairwise distinct (the temporary table is created
`LIKE ... INCLUDING ALL`, so it carries a unique index on `id` and `COPY`
fails on an internal duplicate). -/
def nodupKeys : List Cell → Bool
  | [] => true
  | k :: rest => !(rest.contains k) && nodupKeys rest

/-- `db.copy_from` succeeds iff every csv record has exactly the table's
field count, no primary key is `NULL`, and no primary key repeats within the
file (unique index of the `LIKE ... INCLUDING ALL` temporary table). -/
def copyOk (ncols : Nat) (rows : Table) : Bool :=
  rows.all (fun r => (r.length == ncols) && (rowKey r).isSome) &&
    nodupKeys (rows.map rowKey)

/-- `INSERT INTO perm SELECT * FROM temp ON CONFLICT DO NOTHING`: append each
staged row unless its primary key is already present (also skipping later
duplicates of a key inserted earlier in the same statement). -/
def insertSkipConflicts (perm staged : Table) : Table :=
  staged.foldl
    (fun acc r => if hasKey acc (rowKey r) then acc else acc ++ [r]) perm

/-- The rows written by `table.to_csv` and read back by `COPY ... CSV HEADER`:
the data frame's columns zipped positionally into records. -/
def dfRows (t : DataFrame) : Table := (t.cols.map (fun p => p.2)).transpose

/-- Whether the database already has a table of this name. -/
def hasTable (db : DB) (t : PyStr) : Bool := db.any (fun p => p.1 == t)

/-- `CREATE TABLE IF NOT EXISTS`: add an empty table when absent. -/
def ensureTable (db : DB) (t : PyStr) : DB :=
  if hasTable db t then db else db ++ [(t, [])]

/-- Contents of a table (empty when absent). -/
def getTable (db : DB) (t : PyStr) : Table :=
  ((db.find? (fun p => p.1 == t)).map (fun p => p.2)).getD []

/-- Replace the contents of a table. -/
def setTable (db : DB) (t : PyStr) (v : Table) : DB :=
  db.map (fun p => if p.1 == t then (p.1, v) else p)

/-- The world `populate_database` acts on: the contents of the csv file at
the given path, and the permanent tables of the state's database.  The
temporary table is `ON COMMIT DROP`, so it never appears in the state. -/
structure World where
  file : DataFrame
  db : DB
deriving DecidableEq, Repr

/-- The `with Database(state) as db:` block of `populate_database`
(lines 204-217): open a connection (`connect_ok` models whether
`psycopg2.connect` succeeds for this state), look the csv type up in the
schema registry, create the permanent table if absent, create the staging
table, `COPY` the cleaned file into it, merge with conflict-skip, and commit.
Postgres DDL is transactional and `Database.__exit__` closes without
committing, so on any error the database is returned unchanged. -/
def db_load (connect_ok : PyStr → Bool) (state csv_type : PyStr) (w1 : World) :
    World × Option PyError :=
  if connect_ok state then
    match schemaColumns csv_type with
    | none => (w1, some (.keyError csv_type))
    | some cols =>
      let db1 := ensureTable w1.db csv_type
      if copyOk cols.length (dfRows w1.file) then
        let perm := getTable db1 csv_type
        let db2 := setTable db1 csv_type (insertSkipConflicts perm (dfRows w1.file))
        (⟨w1.file, db2⟩, none)
      else (w1, some .copyError)
  else (w1, some .connectionError)

/-- `database.py`, `populate_database` (lines 178-218): tokenize the file
name, clean the loaded table, overwrite the csv file in place with the
cleaned table, then run the database block.  Returns the new world (file
contents and database) and the exception raised, if any. -/
def populate_database (state_names : PyStr → Option PyStr)
    (connect_ok : PyStr → Bool) (data_file_path : PyStr) (w : World) :
    World × Option PyError :=
  match tokenize_data_file state_names
      ((pySplitChar '/' data_file_path).getLastD []) with
  | .error e => (w, some e)
  | .ok (state, _session, _special, csv_type) =>
    db_load connect_ok state csv_type ⟨clean w.file, w.db⟩

/-- `database.py`, `table_order` (lines 170-173): the fixed per-session
processing order of the batch driver. -/
def table_order : List PyStr :=
  [toL "bills", toL "people", toL "bill_documents", toL "bill_actions",
   toL "bill_abstracts", toL "bill_sponsorships", toL "bill_sources",
   toL "bill_versions", toL "bill_version_links", toL "votes",
   toL "vote_sources", toL "vote_counts", toL "vote_people",
   toL "bill_document_links"]

/-- One observable step of the batch driver: the schema initialisation of
`initialize_database`, a `populate_database` call on a path, or the
`NOT A FILE` diagnostic printed for a missing csv. -/
inductive Action
  | init (state : PyStr)
  | load (path : PyStr)
  | skip (csv_name : PyStr)
deriving DecidableEq, Repr

/-- `os.path.join` for the simple relative components the driver builds. -/
def path_join (a b : PyStr) : PyStr := a ++ '/' :: b

/-- `database.py`, `insert_openstates_into_postgres` (lines 338-359), as the
trace of actions it performs: initialise the schema, load the legislator
roster, then for every session directory and every table of `table_order`
either load the csv (when `os.path.isfile` holds) or print the `NOT A FILE`
diagnostic and continue.  The `state_abbreviations` dictionary lives in the
absent `constants.py` and the file system is external, so both are
parameters. -/
def insert_openstates_into_postgres
    (state_abbreviations : PyStr → Option PyStr)
    (listdir : PyStr → List PyStr) (isfile : PyStr → Bool) (state : PyStr) :
    Except PyError (List Action) :=
  match state_abbreviations (pyCapitalize state) with
  | none => .error (.keyError (pyCapitalize state))
  | some ab =>
    let legislator_file := pyUpper ab ++ toL "_00NA_people.csv"
    let sessionActions :=
      (listdir ab).map (fun session =>
        let session_directory := path_join ab session
        table_order.map (fun tbl =>
          let csv_name := pyJoin ['_'] [pyUpper ab, session, tbl] ++ toL ".csv"
          let p := path_join session_directory csv_name
          if isfile p then Action.load p else Action.skip csv_name))
    .ok (Action.init state :: Action.load (path_join ab legislator_file) ::
      sessionActions.flatten)

/-- The full batch-driver contract for one region, used to state and witness
the ordering claim: the driver returns exactly the initialisation step, then
the legislator-roster load, then per session directory the `table_order`
walk with present files loaded and absent ones skipped; a missing csv for a
(session, table) pair contributes a skip action (the `NOT A FILE`
diagnostic), never an error; and the fixed order places every child table
after its parents. -/
def driverContract (sab : PyStr → Option PyStr) (listdir : PyStr → List PyStr)
    (isfile : PyStr → Bool) (state ab : PyStr) : Prop :=
  (insert_openstates_into_postgres sab listdir isfile state =
    .ok (Action.init state ::
      Action.load (path_join ab (pyUpper ab ++ toL "_00NA_people.csv")) ::
      ((listdir ab).map (fun session =>
        table_order.map (fun tbl =>
          let csv_name := pyJoin ['_'] [pyUpper ab, session, tbl] ++ toL ".csv"
          let p := path_join (path_join ab session) csv_name
          if isfile p then Action.load p else Action.skip csv_name))).flatten)) ∧
  (∀ session ∈ listdir ab, ∀ tbl ∈ table_order, ∀ acts,
    insert_openstates_into_postgres sab listdir isfile state = .ok acts →
    isfile (path_join (path_join ab session)
      (pyJoin ['_'] [pyUpper ab, session, tbl] ++ toL ".csv")) = false →
    Action.skip (pyJoin ['_'] [pyUpper ab, session, tbl] ++ toL ".csv") ∈ acts) ∧
  (toL "bills" ∈ table_order ∧ toL "people" ∈ table_order ∧
    toL "votes" ∈ table_order ∧ toL "bill_actions" ∈ table_order ∧
    toL "bill_sponsorships" ∈ table_order ∧ toL "bill_sources" ∈ table_order ∧
    toL "bill_versions" ∈ table_order ∧ toL "bill_documents" ∈ table_order ∧
    toL "vote_counts" ∈ table_order ∧ toL "vote_people" ∈ table_order ∧
    toL "vote_sources" ∈ table_order ∧
    toL "bill_document_links" ∈ table_order ∧
    toL "bill_version_links" ∈ table_order) ∧
  table_order.findIdx (fun q => q == toL "bills") <
    table_order.findIdx (fun q => q == toL "bill_actions") ∧
  table_order.findIdx (fun q => q == toL "bills") <
    table_order.findIdx (fun q => q == toL "bill_sponsorships") ∧
  table_order.findIdx (fun q => q == toL "people") <
    table_order.findIdx (fun q => q == toL "bill_sponsorships") ∧
  table_order.findIdx (fun q => q == toL "bills") <
    table_order.findIdx (fun q => q == toL "bill_sources") ∧
  table_order.findIdx (fun q => q == toL "bills") <
    table_order.findIdx (fun q => q == toL "bill_versions") ∧
  table_order.findIdx (fun q => q == toL "bills") <
    table_order.findIdx (fun q => q == toL "bill_documents") ∧
  table_order.findIdx (fun q => q == toL "votes") <
    table_order.findIdx (fun q => q == toL "vote_counts") ∧
  table_order.findIdx (fun q => q == toL "votes") <
    table_order.findIdx (fun q => q == toL "vote_people") ∧
  table_order.findIdx (fun q => q == toL "votes") <
    table_order.findIdx (fun q => q == toL "vote_sources") ∧
  table_order.findIdx (fun q => q == toL "bill_documents") <
    table_order.findIdx (fun q => q == toL "bill_document_links") ∧
  table_order.findIdx (fun q => q == toL "bill_versions") <
    table_order.findIdx (fun q => q == toL "bill_version_links")

/-! Concrete instances used by the witnesses.  The `state_names` and
`state_abbreviations` dictionaries live in the absent `constants.py`; the
entries below are the Illinois rows the repository's own examples use. -/

/-- A one-entry region-code map: IL resolves to Illinois. -/
def snIL : PyStr → Option PyStr :=
  fun s => if s = toL "IL" then some (toL "Illinois") else none

/-- A one-entry region-name map: Illinois abbreviates to IL. -/
def sabIL : PyStr → Option PyStr :=
  fun s => if s = toL "Illinois" then some (toL "IL") else none

/-- A connection oracle under which every `psycopg2.connect` succeeds. -/
def cokAll : PyStr → Bool := fun _ => true

/-- A concrete cleaned-shape `bill_sources` file with two rows. -/
def exFile : DataFrame :=
  ⟨[(toL "id", [some (toL "ocd-source/s1"), some (toL "ocd-source/s2")]),
    (toL "note", [some (toL "n1"), none]),
    (toL "url", [some (toL "u1"), some (toL "u2")]),
    (toL "bill_id", [some (toL "ocd-bill/b1"), some (toL "ocd-bill/b2")])]⟩

/-- A world holding that file, over an empty database. -/
def exWorld : World := ⟨exFile, []⟩

/-- The path of the concrete `bill_sources` file. -/
def exPath : PyStr := toL "IL/IL_103rd_bill_sources.csv"

/-- A one-column data frame whose column name ends in id. -/
def dfC4 : DataFrame := ⟨[(toL "bill_id", [some (toL "ocd-bill/b1")])]⟩

/-- The raw bracketed-list value, a left bracket, a quote, the word bill, a
quote and a right bracket. -/
def clsIdVal : PyStr := lbrack :: squote :: (toL "bill" ++ [squote, rbrack])

/-- A data frame whose single column name contains the substring
classification but also ends in id. -/
def dfC5 : DataFrame := ⟨[(toL "classification_id", [some clsIdVal])]⟩

/-- A data frame whose single column is a genuine classification column. -/
def dfC5w : DataFrame := ⟨[(toL "classification", [some clsIdVal])]⟩

/-- A column operation that always raises, exercising failure handling. -/
def failReplaceOp : Char → PyStr → List Cell → Except PyError (List Cell) :=
  fun _ _ _ => .error .valueError

/-- A split operation that always raises. -/
def failSplitOp : List Cell → Except PyError (List Cell) :=
  fun _ => .error .valueError

/-- Whether a Python computation finished without raising. -/
def isOkE {α : Type} : Except PyError α → Bool
  | .ok _ => true
  | .error _ => false

/-- A directory listing with a single session directory. -/
def ldOne : PyStr → List PyStr := fun _ => [toL "103rd"]

/-- A file-system oracle on which no path is a file. -/
def isfileNone : PyStr → Bool := fun _ => false

/-! Helper lemmas about the Python string primitives. -/

theorem getLastD_irrel {α : Type} (l : List α) (h : l ≠ []) (d d' : α) :
    l.getLastD d = l.getLastD d' := by
  cases l with
  | nil => exact absurd rfl h
  | cons a t => rfl

theorem pySplitChar_ne_nil (sep : Char) (l : PyStr) : pySplitChar sep l ≠ [] := by
  cases l with
  | nil => simp [pySplitChar]
  | cons c rest =>
    simp only [pySplitChar]
    cases h : pySplitChar sep rest with
    | nil => simp
    | cons w ws =>
      by_cases hc : c = sep <;> simp [hc]

theorem pySplitChar_of_not_mem {sep : Char} {l : PyStr} (h : sep ∉ l) :
    pySplitChar sep l = [l] := by
  induction l with
  | nil => rfl
  | cons c rest ih =>
    have hc : c ≠ sep := fun he => h (he ▸ List.mem_cons_self c rest)
    have hr : sep ∉ rest := fun hm => h (List.mem_cons_of_mem c hm)
    simp only [pySplitChar, ih hr]
    simp [hc]

theorem pySplitChar_append_cons {sep : Char} {a : PyStr} (b : PyStr)
    (h : sep ∉ a) : pySplitChar sep (a ++ sep :: b) = a :: pySplitChar sep b := by
  induction a with
  | nil =>
    simp only [List.nil_append, pySplitChar]
    cases hb : pySplitChar sep b with
    | nil => exact absurd hb (pySplitChar_ne_nil sep b)
    | cons w ws => simp
  | cons c a ih =>
    have hc : c ≠ sep := fun he => h (he ▸ List.mem_cons_self c a)
    have ha : sep ∉ a := fun hm => h (List.mem_cons_of_mem c hm)
    have hL : pySplitChar sep ((c :: a) ++ sep :: b) =
        if c = sep then [] :: a :: pySplitChar sep b
        else (c :: a) :: pySplitChar sep b := by
      simp only [List.cons_append, pySplitChar, List.append_eq, ih ha]
    rw [hL, if_neg hc]

theorem two_le_length_pySplitChar_append (sep : Char) (x y : PyStr) :
    2 ≤ (pySplitChar sep (x ++ sep :: y)).length := by
  induction x with
  | nil =>
    simp only [List.nil_append, pySplitChar]
    cases hb : pySplitChar sep y with
    | nil => exact absurd hb (pySplitChar_ne_nil sep y)
    | cons w ws => simp
  | cons c x ih =>
    simp only [List.cons_append, pySplitChar]
    cases hb : pySplitChar sep (x ++ sep :: y) with
    | nil => exact absurd hb (pySplitChar_ne_nil sep (x ++ sep :: y))
    | cons w ws =>
      rw [hb] at ih
      by_cases hc : c = sep
      · simp [hc]
      · simp [hc]
        simp at ih
        omega

theorem not_mem_of_mem_pySplitChar {sep : Char} {l : PyStr} {w : PyStr}
    (h : w ∈ pySplitChar sep l) : sep ∉ w := by
  induction l generalizing w with
  | nil =>
    simp [pySplitChar] at h
    simp [h]
  | cons c rest ih =>
    simp only [pySplitChar] at h
    cases hb : pySplitChar sep rest with
    | nil => exact absurd hb (pySplitChar_ne_nil sep rest)
    | cons w0 ws =>
      rw [hb] at h
      by_cases hc : c = sep
      · simp [hc] at h
        rcases h with h | h | h
        · simp [h]
        · exact ih (h ▸ hb ▸ List.mem_cons_self w0 ws)
        · exact ih (hb ▸ List.mem_cons_of_mem w0 h)
      · simp [hc] at h
        rcases h with h | h
        · have hw0 : sep ∉ w0 := ih (hb ▸ List.mem_cons_self w0 ws)
          intro hmem
          rw [h] at hmem
          rcases List.mem_cons.mp hmem with he | hm
          · exact hc he.symm
          · exact hw0 hm
        · exact ih (hb ▸ List.mem_cons_of_mem w0 h)

theorem getLastD_pySplitChar_append (sep : Char) (x y : PyStr) (d : PyStr) :
    (pySplitChar sep (x ++ sep :: y)).getLastD d =
      (pySplitChar sep y).getLastD d := by
  induction x with
  | nil =>
    cases hb : pySplitChar sep y with
    | nil => exact absurd hb (pySplitChar_ne_nil sep y)
    | cons w ws =>
      have hL : pySplitChar sep ([] ++ sep :: y) = [] :: w :: ws := by
        simp [pySplitChar, hb]
      rw [hL]
      simp only [List.getLastD_cons]
  | cons c x ih =>
    have htwo := two_le_length_pySplitChar_append sep x y
    cases hb : pySplitChar sep (x ++ sep :: y) with
    | nil => exact absurd hb (pySplitChar_ne_nil sep (x ++ sep :: y))
    | cons w ws =>
      rw [hb] at ih htwo
      have hws : ws ≠ [] := by
        intro hn
        rw [hn] at htwo
        simp at htwo
      simp only [List.getLastD_cons] at ih
      have hL : pySplitChar sep ((c :: x) ++ sep :: y) =
          if c = sep then [] :: w :: ws else (c :: w) :: ws := by
        simp [pySplitChar, hb]
      rw [hL]
      by_cases hc : c = sep
      · rw [if_pos hc]
        simp only [List.getLastD_cons]
        exact ih
      · rw [if_neg hc]
        simp only [List.getLastD_cons]
        rw [getLastD_irrel ws hws (c :: w) w]
        exact ih

theorem pyJoin_pySplitChar (sep : Char) (l : PyStr) :
    pyJoin [sep] (pySplitChar sep l) = l := by
  induction l with
  | nil => rfl
  | cons c rest ih =>
    simp only [pySplitChar]
    cases hb : pySplitChar sep rest with
    | nil => exact absurd hb (pySplitChar_ne_nil sep rest)
    | cons w ws =>
      rw [hb] at ih
      by_cases hc : c = sep
      · simp only [hc, if_pos rfl, pyJoin]
        rw [ih]
        rfl
      · simp only [if_neg hc]
        cases ws with
        | nil =>
          simp only [pyJoin] at ih ⊢
          rw [ih]
        | cons v vs =>
          simp only [pyJoin] at ih ⊢
          conv_rhs => rw [← ih]
          simp

theorem pyReplace1_append (a : Char) (b : PyStr) (s t : PyStr) :
    pyReplace1 a b (s ++ t) = pyReplace1 a b s ++ pyReplace1 a b t := by
  induction s with
  | nil => rfl
  | cons c s ih => simp [pyReplace1, ih]

theorem pyReplace1_of_not_mem {a : Char} {b : PyStr} {s : PyStr} (h : a ∉ s) :
    pyReplace1 a b s = s := by
  induction s with
  | nil => rfl
  | cons c s ih =>
    have hc : c ≠ a := fun he => h (he ▸ List.mem_cons_self c s)
    have hs : a ∉ s := fun hm => h (List.mem_cons_of_mem c hm)
    simp [pyReplace1, hc, ih hs]

theorem not_mem_pyReplace1 {c a : Char} {b : PyStr} (s : PyStr)
    (hcb : c ∉ b) (hca : c = a ∨ c ∉ s) : c ∉ pyReplace1 a b s := by
  induction s with
  | nil => simp [pyReplace1]
  | cons d s ih =>
    simp only [pyReplace1]
    intro hmem
    rcases List.mem_append.mp hmem with h1 | h2
    · by_cases hd : d = a
      · rw [if_pos hd] at h1
        exact hcb h1
      · rw [if_neg hd] at h1
        simp at h1
        rcases hca with he | hns
        · exact hd (h1 ▸ he)
        · exact hns (h1 ▸ List.mem_cons_self d s)
    · have : c = a ∨ c ∉ s := by
        rcases hca with he | hns
        · exact Or.inl he
        · exact Or.inr (fun hm => hns (List.mem_cons_of_mem d hm))
      exact ih this h2

/-! Value-level facts about the two cleaning transforms. -/

theorem getLastD_mem {α : Type} : ∀ (l : List α) (d : α), l ≠ [] → l.getLastD d ∈ l
  | [a], d, _ => by simp [List.getLastD_cons]
  | a :: b :: t, d, _ => by
    rw [List.getLastD_cons]
    exact List.mem_cons_of_mem a (getLastD_mem (b :: t) a (by simp))

theorem cleanIdStr_of_not_mem {s : PyStr} (h : '/' ∉ s) : cleanIdStr s = s := by
  unfold cleanIdStr
  rw [pySplitChar_of_not_mem h]
  rfl

theorem cleanIdStr_append_cons (x y : PyStr) :
    cleanIdStr (x ++ '/' :: y) = cleanIdStr y :=
  getLastD_pySplitChar_append '/' x y []

theorem not_mem_cleanIdStr (s : PyStr) : '/' ∉ cleanIdStr s := by
  cases hb : pySplitChar '/' s with
  | nil => exact absurd hb (pySplitChar_ne_nil '/' s)
  | cons w ws =>
    have hmem : (w :: ws).getLastD [] ∈ pySplitChar '/' s := by
      rw [hb]
      exact getLastD_mem _ _ (by simp)
    have hres := not_mem_of_mem_pySplitChar hmem
    unfold cleanIdStr
    rw [hb]
    exact hres

theorem cleanIdStr_idem (s : PyStr) : cleanIdStr (cleanIdStr s) = cleanIdStr s :=
  cleanIdStr_of_not_mem (not_mem_cleanIdStr s)

theorem not_mem_cleanClsStr_lbrack (s : PyStr) : lbrack ∉ cleanClsStr s := by
  unfold cleanClsStr
  apply not_mem_pyReplace1 _ (by simp)
  refine Or.inr (not_mem_pyReplace1 _ (by simp [lbrack, rbrace]) ?_)
  exact Or.inr (not_mem_pyReplace1 _ (by simp [lbrack, lbrace]) (Or.inl rfl))

theorem not_mem_cleanClsStr_rbrack (s : PyStr) : rbrack ∉ cleanClsStr s := by
  unfold cleanClsStr
  apply not_mem_pyReplace1 _ (by simp)
  exact Or.inr (not_mem_pyReplace1 _ (by simp [rbrack, rbrace]) (Or.inl rfl))

theorem not_mem_cleanClsStr_squote (s : PyStr) : squote ∉ cleanClsStr s := by
  unfold cleanClsStr
  exact not_mem_pyReplace1 _ (by simp) (Or.inl rfl)

theorem cleanClsStr_idem (s : PyStr) :
    cleanClsStr (cleanClsStr s) = cleanClsStr s := by
  have h1 : pyReplace1 lbrack [lbrace] (cleanClsStr s) = cleanClsStr s :=
    pyReplace1_of_not_mem (not_mem_cleanClsStr_lbrack s)
  have h2 : pyReplace1 rbrack [rbrace] (cleanClsStr s) = cleanClsStr s :=
    pyReplace1_of_not_mem (not_mem_cleanClsStr_rbrack s)
  have h3 : pyReplace1 squote [] (cleanClsStr s) = cleanClsStr s :=
    pyReplace1_of_not_mem (not_mem_cleanClsStr_squote s)
  calc cleanClsStr (cleanClsStr s)
      = pyReplace1 squote []
          (pyReplace1 rbrack [rbrace]
            (pyReplace1 lbrack [lbrace] (cleanClsStr s))) := rfl
    _ = cleanClsStr s := by rw [h1, h2, h3]

theorem cleanClsStr_bracketed (w : PyStr) (h1 : lbrack ∉ w) (h2 : rbrack ∉ w)
    (h3 : squote ∉ w) :
    cleanClsStr (lbrack :: squote :: (w ++ [squote, rbrack])) =
      lbrace :: (w ++ [rbrace]) := by
  have hshape : lbrack :: squote :: (w ++ [squote, rbrack]) =
      [lbrack] ++ [squote] ++ w ++ [squote] ++ [rbrack] := by simp
  have a3 : pyReplace1 lbrack [lbrace] w = w := pyReplace1_of_not_mem h1
  have b3 : pyReplace1 rbrack [rbrace] w = w := pyReplace1_of_not_mem h2
  have c3 : pyReplace1 squote [] w = w := pyReplace1_of_not_mem h3
  unfold cleanClsStr
  rw [hshape]
  simp only [pyReplace1_append]
  rw [a3]
  rw [show pyReplace1 lbrack [lbrace] [lbrack] = [lbrace] from by decide]
  rw [show pyReplace1 lbrack [lbrace] [squote] = [squote] from by decide]
  rw [show pyReplace1 lbrack [lbrace] [rbrack] = [rbrack] from by decide]
  rw [b3]
  rw [show pyReplace1 rbrack [rbrace] [lbrace] = [lbrace] from by decide]
  rw [show pyReplace1 rbrack [rbrace] [squote] = [squote] from by decide]
  rw [show pyReplace1 rbrack [rbrace] [rbrack] = [rbrace] from by decide]
  rw [c3]
  rw [show pyReplace1 squote [] [lbrace] = [lbrace] from by decide]
  rw [show pyReplace1 squote [] [squote] = [] from by decide]
  rw [show pyReplace1 squote [] [rbrace] = [rbrace] from by decide]
  simp

theorem cleanColumn_idem (name : PyStr) (col : List Cell) :
    cleanColumn name (cleanColumn name col) = cleanColumn name col := by
  unfold cleanColumn
  by_cases hid : idColumn name
  · simp only [if_pos hid, List.map_map]
    apply List.map_congr_left
    intro c _
    cases c with
    | none => rfl
    | some s => simp [cleanIdStr_idem]
  · by_cases hcls : classificationColumn name
    · simp only [if_neg hid, if_pos hcls, List.map_map]
      apply List.map_congr_left
      intro c _
      cases c with
      | none => rfl
      | some s => simp [cleanClsStr_idem]
    · simp [if_neg hid, if_neg hcls]

theorem clean_idem (t : DataFrame) : clean (clean t) = clean t := by
  unfold clean
  simp only [List.map_map]
  congr 1
  apply List.map_congr_left
  intro p _
  simp [cleanColumn_idem]

/-! Lemmas about the conflict-skip merge and the table map. -/

theorem hasKey_append_mono {tbl : Table} {k : Cell} (r : List Cell)
    (h : hasKey tbl k = true) : hasKey (tbl ++ [r]) k = true := by
  unfold hasKey at h ⊢
  simp only [List.any_append, h, Bool.true_or]

theorem hasKey_insertSkipConflicts_of {perm : Table} {k : Cell}
    (staged : Table) (h : hasKey perm k = true) :
    hasKey (insertSkipConflicts perm staged) k = true := by
  induction staged generalizing perm with
  | nil => exact h
  | cons r rest ih =>
    unfold insertSkipConflicts
    simp only [List.foldl_cons]
    by_cases hk : hasKey perm (rowKey r) = true
    · rw [if_pos hk]
      exact ih h
    · rw [if_neg hk]
      exact ih (hasKey_append_mono r h)

theorem hasKey_insertSkipConflicts_mem {perm staged : Table} {r : List Cell}
    (h : r ∈ staged) :
    hasKey (insertSkipConflicts perm staged) (rowKey r) = true := by
  induction staged generalizing perm with
  | nil => cases h
  | cons q rest ih =>
    unfold insertSkipConflicts
    simp only [List.foldl_cons]
    rcases List.mem_cons.mp h with he | hm
    · subst he
      by_cases hk : hasKey perm (rowKey r) = true
      · rw [if_pos hk]
        exact hasKey_insertSkipConflicts_of rest hk
      · rw [if_neg hk]
        apply hasKey_insertSkipConflicts_of rest
        unfold hasKey
        simp [rowKey]
    · by_cases hk : hasKey perm (rowKey q) = true
      · rw [if_pos hk]
        exact ih hm
      · rw [if_neg hk]
        exact ih hm

theorem insertSkipConflicts_of_forall {perm staged : Table}
    (h : ∀ r ∈ staged, hasKey perm (rowKey r) = true) :
    insertSkipConflicts perm staged = perm := by
  induction staged with
  | nil => rfl
  | cons r rest ih =>
    unfold insertSkipConflicts
    simp only [List.foldl_cons]
    rw [if_pos (h r (List.mem_cons_self r rest))]
    exact ih (fun q hq => h q (List.mem_cons_of_mem r hq))

theorem insertSkipConflicts_idem (perm staged : Table) :
    insertSkipConflicts (insertSkipConflicts perm staged) staged =
      insertSkipConflicts perm staged :=
  insertSkipConflicts_of_forall
    (fun _r hr => hasKey_insertSkipConflicts_mem hr)

theorem hasTable_ensureTable (db : DB) (t : PyStr) :
    hasTable (ensureTable db t) t = true := by
  unfold ensureTable
  by_cases h : hasTable db t = true
  · rw [if_pos h]
    exact h
  · rw [if_neg h]
    unfold hasTable
    simp

theorem setTable_cons (p : PyStr × Table) (rest : DB) (t : PyStr) (v : Table) :
    setTable (p :: rest) t v =
      (if (p.1 == t) = true then (p.1, v) else p) :: setTable rest t v := rfl

theorem hasTable_cons (q : PyStr × Table) (l : DB) (t : PyStr) :
    hasTable (q :: l) t = ((q.1 == t) || hasTable l t) := rfl

theorem getTable_cons_pos {p : PyStr × Table} {t : PyStr} (rest : DB)
    (h : (p.1 == t) = true) : getTable (p :: rest) t = p.2 := by
  unfold getTable
  rw [@List.find?_cons_of_pos _ (fun q => q.1 == t) p rest h]
  rfl

theorem getTable_cons_neg {p : PyStr × Table} {t : PyStr} (rest : DB)
    (h : (p.1 == t) = false) : getTable (p :: rest) t = getTable rest t := by
  unfold getTable
  rw [@List.find?_cons_of_neg _ (fun q => q.1 == t) p rest (by simp [h])]

theorem hasTable_setTable (db : DB) (t : PyStr) (v : Table) :
    hasTable (setTable db t v) t = hasTable db t := by
  induction db with
  | nil => rfl
  | cons p rest ih =>
    rw [setTable_cons, hasTable_cons, hasTable_cons, ih]
    by_cases h : (p.1 == t) = true
    · rw [if_pos h]
    · rw [if_neg h]

theorem getTable_setTable {db : DB} {t : PyStr} (v : Table)
    (h : hasTable db t = true) : getTable (setTable db t v) t = v := by
  induction db with
  | nil => simp [hasTable] at h
  | cons p rest ih =>
    rw [setTable_cons]
    by_cases hp : (p.1 == t) = true
    · rw [if_pos hp]
      exact getTable_cons_pos _ hp
    · have hpf : (p.1 == t) = false := by
        cases hb : (p.1 == t) with
        | false => rfl
        | true => exact absurd hb hp
      rw [if_neg hp]
      rw [getTable_cons_neg _ hpf]
      apply ih
      rw [hasTable_cons] at h
      simpa [hpf] using h

theorem setTable_setTable (db : DB) (t : PyStr) (v v' : Table) :
    setTable (setTable db t v) t v' = setTable db t v' := by
  unfold setTable
  rw [List.map_map]
  apply List.map_congr_left
  intro p _
  by_cases h : p.1 = t
  · simp [h]
  · simp [h]

theorem ensureTable_of_hasTable {db : DB} {t : PyStr}
    (h : hasTable db t = true) : ensureTable db t = db := by
  unfold ensureTable
  rw [if_pos h]

/-- Evaluation of the database block when every step succeeds. -/
theorem db_load_eq_of {connect_ok : PyStr → Bool} {state csv_type : PyStr}
    {cols : List PyStr} (w : World) (hc : connect_ok state = true)
    (hs : schemaColumns csv_type = some cols)
    (hcopy : copyOk cols.length (dfRows w.file) = true) :
    db_load connect_ok state csv_type w =
      (⟨w.file, setTable (ensureTable w.db csv_type) csv_type
          (insertSkipConflicts (getTable (ensureTable w.db csv_type) csv_type)
            (dfRows w.file))⟩, none) := by
  unfold db_load
  simp only [hc, hs, hcopy, if_true]

/-- A failing run of the database block raises an exception: the result's
second component is `none` only on the success path. -/
theorem db_load_none_inv {connect_ok : PyStr → Bool} {state csv_type : PyStr}
    {w1 w2 : World} (h : db_load connect_ok state csv_type w1 = (w2, none)) :
    ∃ cols, connect_ok state = true ∧ schemaColumns csv_type = some cols ∧
      copyOk cols.length (dfRows w1.file) = true := by
  unfold db_load at h
  by_cases hc : connect_ok state = true
  · rw [if_pos hc] at h
    cases hs : schemaColumns csv_type with
    | none =>
      rw [hs] at h
      simp at h
    | some cols =>
      rw [hs] at h
      by_cases hcopy : copyOk cols.length (dfRows w1.file) = true
      · exact ⟨cols, hc, rfl, hcopy⟩
      · simp only [if_neg hcopy] at h
        simp at h
  · rw [if_neg hc] at h
    simp at h

/-- Core of the idempotence argument: a successful run of the database block
leaves the file untouched, and running the block again from the state it
produced changes nothing and raises nothing. -/
theorem db_load_twice {connect_ok : PyStr → Bool} {state csv_type : PyStr}
    {w1 w2 : World} (h : db_load connect_ok state csv_type w1 = (w2, none)) :
    w2.file = w1.file ∧ db_load connect_ok state csv_type w2 = (w2, none) := by
  obtain ⟨cols, hc, hs, hcopy⟩ := db_load_none_inv h
  rw [db_load_eq_of w1 hc hs hcopy] at h
  have hw2 : w2 = ⟨w1.file,
      setTable (ensureTable w1.db csv_type) csv_type
        (insertSkipConflicts (getTable (ensureTable w1.db csv_type) csv_type)
          (dfRows w1.file))⟩ := by
    have := congrArg Prod.fst h
    exact this.symm
  have hfile : w2.file = w1.file := by rw [hw2]
  refine ⟨hfile, ?_⟩
  have hht : hasTable w2.db csv_type = true := by
    rw [hw2]
    show hasTable (setTable (ensureTable w1.db csv_type) csv_type _) csv_type = true
    rw [hasTable_setTable]
    exact hasTable_ensureTable w1.db csv_type
  have hcopy2 : copyOk cols.length (dfRows w2.file) = true := by
    rw [hfile]
    exact hcopy
  rw [db_load_eq_of w2 hc hs hcopy2]
  rw [ensureTable_of_hasTable hht]
  have hget : getTable w2.db csv_type =
      insertSkipConflicts (getTable (ensureTable w1.db csv_type) csv_type)
        (dfRows w1.file) := by
    rw [hw2]
    exact getTable_setTable _ (hasTable_ensureTable w1.db csv_type)
  rw [hget, hfile, insertSkipConflicts_idem]
  have hset : setTable w2.db csv_type
      (insertSkipConflicts (getTable (ensureTable w1.db csv_type) csv_type)
        (dfRows w1.file)) = w2.db := by
    rw [hw2]
    show setTable (setTable (ensureTable w1.db csv_type) csv_type _) csv_type _ = _
    rw [setTable_setTable]
  rw [hset, hw2]

/-! Characterisation of the file-name classifier on well-formed names. -/

theorem tokens_of_wellformed (region sessionTok typ : PyStr)
    (hdot : '.' ∉ region ++ '_' :: sessionTok ++ '_' :: typ)
    (hslash : '/' ∉ region ++ '_' :: sessionTok ++ '_' :: typ)
    (hur : '_' ∉ region) (hus : '_' ∉ sessionTok) :
    pySplitChar '_' ((pySplitChar '/' ((pySplitChar '.'
        ((region ++ '_' :: sessionTok ++ '_' :: typ) ++ toL ".csv")).headD [])).getLastD []) =
      region :: sessionTok :: pySplitChar '_' typ := by
  have h1 : pySplitChar '.' ((region ++ '_' :: sessionTok ++ '_' :: typ) ++ toL ".csv") =
      (region ++ '_' :: sessionTok ++ '_' :: typ) :: pySplitChar '.' (toL "csv") := by
    rw [show toL ".csv" = '.' :: toL "csv" from rfl]
    exact pySplitChar_append_cons (toL "csv") hdot
  rw [h1, List.headD_cons, pySplitChar_of_not_mem hslash]
  rw [show ([region ++ '_' :: sessionTok ++ '_' :: typ] : List PyStr).getLastD [] =
      region ++ '_' :: sessionTok ++ '_' :: typ from rfl]
  rw [List.append_assoc, List.cons_append]
  rw [pySplitChar_append_cons _ hur, pySplitChar_append_cons _ hus]

theorem tokenize_wellformed (state_names : PyStr → Option PyStr)
    (region nm sessionTok typ : PyStr)
    (hdot : '.' ∉ region ++ '_' :: sessionTok ++ '_' :: typ)
    (hslash : '/' ∉ region ++ '_' :: sessionTok ++ '_' :: typ)
    (hur : '_' ∉ region) (hus : '_' ∉ sessionTok)
    (hsn : state_names region = some nm) :
    tokenize_data_file state_names
        ((region ++ '_' :: sessionTok ++ '_' :: typ) ++ toL ".csv") =
      match pyInt (sessionNumberStr sessionTok) with
      | none => .error .valueError
      | some k => .ok (pyLower nm, k, sessionTok.contains '-',
          pyJoin ['_'] (pySplitChar '_' typ)) := by
  simp only [tokenize_data_file,
    tokens_of_wellformed region sessionTok typ hdot hslash hur hus,
    List.headD_cons, hsn, List.get?_cons_succ, List.get?_cons_zero,
    List.drop_succ_cons, List.drop_nil, List.drop_zero]

/-- C3: on every well-formed file name REGION_SESSION_TYPE.csv — region code
resolving through the region map, tokens free of stray separators, session
token splitting (before any hyphen) into digits parsed by the Python integer
parser followed by a two-character suffix — the classifier returns exactly
the lower-cased resolved region name, that session number, the
special-session flag (true iff the session token contains a hyphen, in which
case the number is parsed from the portion before the hyphen), and the
dataset type obtained by rejoining the remaining underscore-separated
tokens. -/
theorem C3_tokenize_valid_filename (state_names : PyStr → Option PyStr)
    (region nm sessionTok typ ds sfx : PyStr) (n : Int)
    (hdot : '.' ∉ region ++ '_' :: sessionTok ++ '_' :: typ)
    (hslash : '/' ∉ region ++ '_' :: sessionTok ++ '_' :: typ)
    (hur : '_' ∉ region) (hus : '_' ∉ sessionTok)
    (hsn : state_names region = some nm)
    (hpre : (if sessionTok.contains '-' = true
        then (pySplitChar '-' sessionTok).headD [] else sessionTok) = ds ++ sfx)
    (hsfx : sfx.length = 2)
    (hnum : pyInt ds = some n) :
    tokenize_data_file state_names
        ((region ++ '_' :: sessionTok ++ '_' :: typ) ++ toL ".csv") =
      .ok (pyLower nm, n, sessionTok.contains '-', typ) := by
  have hsns : sessionNumberStr sessionTok = ds := by
    unfold sessionNumberStr
    simp only [hpre, List.length_append, hsfx]
    rw [show ds.length + 2 - 2 = ds.length from by omega]
    exact List.take_left' rfl
  rw [tokenize_wellformed state_names region nm sessionTok typ hdot hslash hur hus hsn]
  rw [hsns, hnum, pyJoin_pySplitChar]

/-- Witness for C3 at the special-session name IL_102nd-sp1_bill_actions.csv. -/
theorem C3_witness :
    tokenize_data_file snIL
        ((toL "IL" ++ '_' :: toL "102nd-sp1" ++ '_' :: toL "bill_actions") ++ toL ".csv") =
      .ok (pyLower (toL "Illinois"), 102, (toL "102nd-sp1").contains '-',
        toL "bill_actions") :=
  C3_tokenize_valid_filename snIL (toL "IL") (toL "Illinois") (toL "102nd-sp1")
    (toL "bill_actions") (toL "102") (toL "nd") 102 (by decide) (by decide)
    (by decide) (by decide) rfl (by decide) (by decide) (by decide)

/-- C7 counterexample: the session token 1034 does not end in two alphabetic
characters, yet the classifier does not raise — it strips the two final
digits and happily returns session number 10. -/
theorem C7_counterexample :
    tokenize_data_file snIL (toL "IL_1034_bills.csv") =
      .ok (toL "illinois", 10, false, toL "bills") ∧
    ((toL "1034").drop ((toL "1034").length - 2)).all Char.isAlpha = false :=
  ⟨rfl, rfl⟩

/-- C7 amended: the session-number parse strips the final two characters
(whatever they are) of the pre-hyphen session token and converts the
remainder with the Python integer parser; on a well-formed name the
classifier raises the malformed-input error exactly when that remainder is
not a valid integer literal — not whenever the suffix is non-alphabetic. -/
theorem C7_session_parse_error_iff (state_names : PyStr → Option PyStr)
    (region nm sessionTok typ : PyStr)
    (hdot : '.' ∉ region ++ '_' :: sessionTok ++ '_' :: typ)
    (hslash : '/' ∉ region ++ '_' :: sessionTok ++ '_' :: typ)
    (hur : '_' ∉ region) (hus : '_' ∉ sessionTok)
    (hsn : state_names region = some nm) :
    tokenize_data_file state_names
        ((region ++ '_' :: sessionTok ++ '_' :: typ) ++ toL ".csv") =
      .error .valueError ↔
    pyInt (sessionNumberStr sessionTok) = none := by
  rw [tokenize_wellformed state_names region nm sessionTok typ hdot hslash hur hus hsn]
  cases h : pyInt (sessionNumberStr sessionTok) with
  | none => simp
  | some k => simp

/-- Witness for C7 at the unparseable session token abc. -/
theorem C7_witness :
    (tokenize_data_file snIL
        ((toL "IL" ++ '_' :: toL "abc" ++ '_' :: toL "bills") ++ toL ".csv") =
      .error .valueError ↔
    pyInt (sessionNumberStr (toL "abc")) = none) :=
  C7_session_parse_error_iff snIL (toL "IL") (toL "Illinois") (toL "abc")
    (toL "bills") (by decide) (by decide) (by decide) (by decide) rfl

/-! The loader claims. -/

/-- C1: loading the same file twice through `populate_database` is
idempotent.  If a load returned without an exception, running the identical
load again returns the very same world and again no exception: every staged
row's primary identifier is already present in the permanent table, so the
`ON CONFLICT DO NOTHING` merge silently skips it — no duplicate rows, no
error (and the on-disk file, already cleaned, is unchanged by the second
clean). -/
theorem C1_populate_database_idempotent (state_names : PyStr → Option PyStr)
    (connect_ok : PyStr → Bool) (data_file_path : PyStr) (w w1 : World)
    (h : populate_database state_names connect_ok data_file_path w = (w1, none)) :
    populate_database state_names connect_ok data_file_path w1 = (w1, none) := by
  unfold populate_database at h ⊢
  cases htok : tokenize_data_file state_names
      ((pySplitChar '/' data_file_path).getLastD []) with
  | error e =>
    rw [htok] at h
    simp at h
  | ok res =>
    obtain ⟨state, sess, sp, ct⟩ := res
    simp only [htok] at h ⊢
    obtain ⟨hfile, hagain⟩ := db_load_twice h
    have hfile' : w1.file = clean w.file := hfile
    have hcf : clean w1.file = w1.file := by
      rw [hfile']
      exact clean_idem w.file
    have hw : (⟨clean w1.file, w1.db⟩ : World) = w1 := by rw [hcf]
    rw [hw]
    exact hagain

/-- Witness for C1: a concrete `bill_sources` load into an empty database,
repeated. -/
theorem C1_witness :
    populate_database snIL cokAll exPath
        ((populate_database snIL cokAll exPath exWorld).fst) =
      ((populate_database snIL cokAll exPath exWorld).fst, none) :=
  C1_populate_database_idempotent snIL cokAll exPath exWorld
    ((populate_database snIL cokAll exPath exWorld).fst) (by decide)

/-- C2: when the file name tokenizes but its dataset type is not one of the
fourteen registered types, `populate_database` raises the registry lookup
`KeyError` (there is no fallback) and the database component of the world is
returned exactly as it was — the failure happens before any commit and the
connection closes without committing, so the permanent table receives no
rows (only the on-disk file has been rewritten by the cleaning phase). -/
theorem C2_unknown_type_keyerror (state_names : PyStr → Option PyStr)
    (connect_ok : PyStr → Bool) (data_file_path : PyStr) (w : World)
    (state : PyStr) (sess : Int) (sp : Bool) (ct : PyStr)
    (htok : tokenize_data_file state_names
      ((pySplitChar '/' data_file_path).getLastD []) = .ok (state, sess, sp, ct))
    (hconn : connect_ok state = true)
    (hs : schemaColumns ct = none) :
    populate_database state_names connect_ok data_file_path w =
      (⟨clean w.file, w.db⟩, some (.keyError ct)) := by
  unfold populate_database
  simp only [htok]
  unfold db_load
  rw [if_pos hconn]
  simp only [hs]

/-- Witness for C2: the dataset type foo is not registered. -/
theorem C2_witness :
    populate_database snIL cokAll (toL "IL_103rd_foo.csv") exWorld =
      (⟨clean exWorld.file, exWorld.db⟩, some (.keyError (toL "foo"))) :=
  C2_unknown_type_keyerror snIL cokAll (toL "IL_103rd_foo.csv") exWorld
    (toL "illinois") 103 false (toL "foo") rfl rfl rfl

/-- C10: once the file name tokenizes, the csv file on disk has been
overwritten in place with the cleaned table before the first database
interaction, and whatever happens afterwards — success, connection failure,
unknown dataset type, copy failure — the world `populate_database` returns
holds the cleaned file: the on-disk side effect is never undone, so a load
that fails after the cleaning phase leaves the mutated file behind. -/
theorem C10_file_overwritten_before_db (state_names : PyStr → Option PyStr)
    (connect_ok : PyStr → Bool) (data_file_path : PyStr) (w : World)
    (state : PyStr) (sess : Int) (sp : Bool) (ct : PyStr)
    (htok : tokenize_data_file state_names
      ((pySplitChar '/' data_file_path).getLastD []) = .ok (state, sess, sp, ct)) :
    ((populate_database state_names connect_ok data_file_path w).fst).file =
      clean w.file := by
  unfold populate_database
  simp only [htok]
  unfold db_load
  split
  · split
    · rfl
    · split
      · rfl
      · rfl
  · rfl

/-- Witness for C10: the load of the unregistered type foo fails, and the
returned world still holds the cleaned file. -/
theorem C10_witness :
    ((populate_database snIL cokAll (toL "IL_103rd_foo.csv") exWorld).fst).file =
      clean exWorld.file :=
  C10_file_overwritten_before_db snIL cokAll (toL "IL_103rd_foo.csv") exWorld
    (toL "illinois") 103 false (toL "foo") rfl

/-! The cleaning claims. -/

theorem clean_cols_get? (t : DataFrame) (j : Nat) (name : PyStr) (col : List Cell)
    (hj : t.cols.get? j = some (name, col)) :
    (clean t).cols.get? j = some (name, cleanColumn name col) := by
  unfold clean
  rw [List.get?_map, hj]
  rfl

/-- C4: cleaning sends every column whose name ends in the two characters id
through the final-segment transform, cell by cell; a value of the form a/b/c
(final segment free of the separator) becomes c, and a value containing no
separator at all is left unchanged. -/
theorem C4_id_suffix_clean (t : DataFrame) (j : Nat) (name : PyStr)
    (col : List Cell) (hj : t.cols.get? j = some (name, col))
    (hid : idColumn name = true) :
    (clean t).cols.get? j = some (name, col.map (Option.map cleanIdStr)) ∧
    (∀ a b c : PyStr, '/' ∉ c → cleanIdStr (a ++ '/' :: (b ++ '/' :: c)) = c) ∧
    (∀ s : PyStr, '/' ∉ s → cleanIdStr s = s) := by
  refine ⟨?_, ?_, ?_⟩
  · rw [clean_cols_get? t j name col hj]
    unfold cleanColumn
    rw [if_pos hid]
  · intro a b c hc
    rw [cleanIdStr_append_cons, cleanIdStr_append_cons]
    exact cleanIdStr_of_not_mem hc
  · intro s hs
    exact cleanIdStr_of_not_mem hs

/-- Witness for C4 at a one-column bill_id frame. -/
theorem C4_witness :
    (clean dfC4).cols.get? 0 = some (toL "bill_id", [some (toL "b1")]) ∧
    ((toL "ocd") ++ '/' :: ((toL "bill") ++ '/' :: (toL "b1")) = toL "ocd/bill/b1") ∧
    cleanIdStr (toL "ocd/bill/b1") = toL "b1" := by
  have h := C4_id_suffix_clean dfC4 0 (toL "bill_id") [some (toL "ocd-bill/b1")]
    rfl (by decide)
  refine ⟨h.1, by decide, ?_⟩
  have := h.2.1 (toL "ocd") (toL "bill") (toL "b1") (by decide)
  rw [show (toL "ocd") ++ '/' :: ((toL "bill") ++ '/' :: (toL "b1")) =
    toL "ocd/bill/b1" from by decide] at this
  exact this

/-- C9: the prefix strip fires on every column whose name merely ends in the
two characters id — in particular on the primary-key column named exactly
id, so a record's own primary identifier is also reduced to the final
segment of its raw value during cleaning. -/
theorem C9_primary_id_stripped (t : DataFrame) (j : Nat) (col : List Cell)
    (hj : t.cols.get? j = some (toL "id", col)) :
    (clean t).cols.get? j = some (toL "id", col.map (Option.map cleanIdStr)) ∧
    idColumn (toL "id") = true ∧
    cleanIdStr (toL "ocd-bill/0f3a") = toL "0f3a" := by
  refine ⟨?_, by decide, by decide⟩
  rw [clean_cols_get? t j (toL "id") col hj]
  unfold cleanColumn
  rw [if_pos (by decide : idColumn (toL "id") = true)]

/-- Witness for C9 at the concrete bill_sources frame, whose first column is
the primary key id. -/
theorem C9_witness :
    (clean exFile).cols.get? 0 =
      some (toL "id", [some (toL "s1"), some (toL "s2")]) :=
  (C9_primary_id_stripped exFile 0
    [some (toL "ocd-source/s1"), some (toL "ocd-source/s2")] rfl).1

/-- C5 counterexample: the column named classification_id contains the
substring classification, but its name also ends in id, so the id branch
wins: the bracketed value is left exactly as it was, not rewritten to the
brace form the claim predicts. -/
theorem C5_counterexample :
    (clean dfC5).cols = [(toL "classification_id", [some clsIdVal])] ∧
    cleanClsStr clsIdVal = lbrace :: (toL "bill" ++ [rbrace]) ∧
    clsIdVal ≠ lbrace :: (toL "bill" ++ [rbrace]) := by
  refine ⟨by decide, by decide, by decide⟩

/-- C5 amended: for every column whose name contains the substring
classification and does not end in the two characters id (the counterexample
forces this restriction — the id test is checked first), every value is
rewritten by replacing a left bracket with a left brace, a right bracket
with a right brace and deleting single quotes, so a bracketed one-token list
becomes the brace-delimited unquoted form. -/
theorem C5_classification_clean (t : DataFrame) (j : Nat) (name : PyStr)
    (col : List Cell) (hj : t.cols.get? j = some (name, col))
    (hcls : classificationColumn name = true) (hid : idColumn name = false) :
    (clean t).cols.get? j = some (name, col.map (Option.map cleanClsStr)) ∧
    (∀ w : PyStr, lbrack ∉ w → rbrack ∉ w → squote ∉ w →
      cleanClsStr (lbrack :: squote :: (w ++ [squote, rbrack])) =
        lbrace :: (w ++ [rbrace])) := by
  refine ⟨?_, fun w h1 h2 h3 => cleanClsStr_bracketed w h1 h2 h3⟩
  rw [clean_cols_get? t j name col hj]
  unfold cleanColumn
  rw [if_neg (by simp [hid]), if_pos hcls]

/-- Witness for C5 at a genuine classification column holding the bracketed
value. -/
theorem C5_witness :
    (clean dfC5w).cols.get? 0 =
      some (toL "classification", [some (lbrace :: (toL "bill" ++ [rbrace]))]) :=
  (C5_classification_clean dfC5w 0 (toL "classification") [some clsIdVal]
    rfl (by decide) (by decide)).1

/-- C6 counterexample: a replace operation that raises on a classification
column aborts the whole-file clean with that error — the classification
branch of the loop is outside the `try ... except`, so not every
column-level transform failure is caught. -/
theorem C6_counterexample :
    cleanColsE splitLastCol failReplaceOp
      [(toL "classification", [some (toL "x")])] = .error .valueError := rfl

/-- C6 amended: only the identifier-column branch is protected by the
handler: whatever the split operation does — including raising on every
column — the whole-file clean succeeds as long as the replace operations of
the classification branch cannot raise.  A split failure on a column ending
in id is caught, logged and leaves that column unchanged; a classification
replace failure propagates (see the counterexample). -/
theorem C6_only_id_failures_swallowed
    (sp : List Cell → Except PyError (List Cell))
    (rp : Char → PyStr → List Cell → Except PyError (List Cell))
    (hrp : ∀ a b col, isOkE (rp a b col) = true)
    (cols : List (PyStr × List Cell)) :
    isOkE (cleanColsE sp rp cols) = true := by
  have hmap : ∀ {α β : Type} (z : Except PyError α) (f : α → β),
      isOkE z = true → isOkE (z.map f) = true := by
    intro α β z f hz
    cases z with
    | ok v => rfl
    | error e => exact absurd hz (by simp [isOkE])
  have hbind : ∀ {α β : Type} (z : Except PyError α) (f : α → Except PyError β),
      isOkE z = true → (∀ v, isOkE (f v) = true) → isOkE (z.bind f) = true := by
    intro α β z f hz hf
    cases z with
    | ok v => exact hf v
    | error e => exact absurd hz (by simp [isOkE])
  induction cols with
  | nil => rfl
  | cons p rest ih =>
    unfold cleanColsE
    by_cases hid : idColumn p.1 = true
    · rw [if_pos hid]
      cases hsp : sp p.2 with
      | ok colv => exact hmap _ _ ih
      | error e => exact hmap _ _ ih
    · rw [if_neg hid]
      by_cases hcls : classificationColumn p.1 = true
      · rw [if_pos hcls]
        refine hbind _ _ (hrp lbrack [lbrace] p.2) (fun c1 => ?_)
        refine hbind _ _ (hrp rbrack [rbrace] c1) (fun c2 => ?_)
        refine hbind _ _ (hrp squote [] c2) (fun c3 => ?_)
        exact hmap _ _ ih
      · rw [if_neg hcls]
        exact hmap _ _ ih

/-- Witness for C6: with a split operation that always raises and the real
(infallible) replace operations, the clean of a frame with an id column and
a classification column still succeeds — the id failure is swallowed. -/
theorem C6_witness :
    isOkE (cleanColsE failSplitOp replaceCol
      [(toL "bill_id", [some (toL "x/y")]),
       (toL "classification", [some clsIdVal])]) = true :=
  C6_only_id_failures_swallowed failSplitOp replaceCol
    (fun _a _b _col => rfl) _

/-- With the real, infallible pandas operations, the exception-structured
clean computes exactly the concrete `clean`. -/
theorem cleanColsE_concrete (cols : List (PyStr × List Cell)) :
    cleanColsE splitLastCol replaceCol cols =
      .ok (cols.map (fun p => (p.1, cleanColumn p.1 p.2))) := by
  induction cols with
  | nil => rfl
  | cons p rest ih =>
    unfold cleanColsE
    by_cases hid : idColumn p.1 = true
    · rw [if_pos hid]
      show ((cleanColsE splitLastCol replaceCol rest).map
        (fun qs => (p.1, p.2.map (Option.map cleanIdStr)) :: qs)) = _
      rw [ih]
      show Except.ok _ = _
      simp [cleanColumn, hid]
    · rw [if_neg hid]
      by_cases hcls : classificationColumn p.1 = true
      · rw [if_pos hcls]
        show ((cleanColsE splitLastCol replaceCol rest).map
          (fun qs => (p.1, ((p.2.map (Option.map (pyReplace1 lbrack [lbrace]))).map
            (Option.map (pyReplace1 rbrack [rbrace]))).map
            (Option.map (pyReplace1 squote []))) :: qs)) = _
        rw [ih]
        show Except.ok _ = _
        have hcol : ((p.2.map (Option.map (pyReplace1 lbrack [lbrace]))).map
            (Option.map (pyReplace1 rbrack [rbrace]))).map
            (Option.map (pyReplace1 squote [])) =
            p.2.map (Option.map cleanClsStr) := by
          rw [List.map_map, List.map_map]
          apply List.map_congr_left
          intro c _
          cases c with
          | none => rfl
          | some s => rfl
        rw [hcol]
        simp [cleanColumn, hid, hcls]
      · rw [if_neg hcls]
        show ((cleanColsE splitLastCol replaceCol rest).map
          (fun qs => (p.1, p.2) :: qs)) = _
        rw [ih]
        show Except.ok _ = _
        simp [cleanColumn, hid, hcls]

/-! The batch-driver claim. -/

/-- C8: for every region whose abbreviation resolves, the batch driver first
initialises the schema, then loads the region's legislator roster file, then
for each session directory processes the dataset types in the fixed
`table_order` — which places bills before bill_actions, bills and people
before bill_sponsorships, bills before bill_sources, bill_versions and
bill_documents, votes before vote_counts, vote_people and vote_sources,
bill_documents before bill_document_links, and bill_versions before
bill_version_links — and a missing csv for a (session, dataset type) pair
contributes a NOT A FILE skip action rather than an error. -/
theorem C8_batch_driver_order (sab : PyStr → Option PyStr)
    (listdir : PyStr → List PyStr) (isfile : PyStr → Bool)
    (state ab : PyStr) (hab : sab (pyCapitalize state) = some ab) :
    driverContract sab listdir isfile state ab := by
  have htrace : insert_openstates_into_postgres sab listdir isfile state =
      .ok (Action.init state ::
        Action.load (path_join ab (pyUpper ab ++ toL "_00NA_people.csv")) ::
        ((listdir ab).map (fun session =>
          table_order.map (fun tbl =>
            let csv_name := pyJoin ['_'] [pyUpper ab, session, tbl] ++ toL ".csv"
            let p := path_join (path_join ab session) csv_name
            if isfile p then Action.load p else Action.skip csv_name))).flatten) := by
    unfold insert_openstates_into_postgres
    rw [hab]
  refine ⟨htrace, ?_, by decide, by decide, by decide, by decide, by decide,
    by decide, by decide, by decide, by decide, by decide, by decide, by decide⟩
  intro session hsession tbl htbl acts hacts hmiss
  rw [htrace] at hacts
  have hacts' : acts = Action.init state ::
      Action.load (path_join ab (pyUpper ab ++ toL "_00NA_people.csv")) ::
      ((listdir ab).map (fun session =>
        table_order.map (fun tbl =>
          let csv_name := pyJoin ['_'] [pyUpper ab, session, tbl] ++ toL ".csv"
          let p := path_join (path_join ab session) csv_name
          if isfile p then Action.load p else Action.skip csv_name))).flatten := by
    cases hacts
    rfl
  rw [hacts']
  apply List.mem_cons_of_mem
  apply List.mem_cons_of_mem
  rw [List.mem_flatten]
  refine ⟨table_order.map (fun tbl =>
    let csv_name := pyJoin ['_'] [pyUpper ab, session, tbl] ++ toL ".csv"
    let p := path_join (path_join ab session) csv_name
    if isfile p then Action.load p else Action.skip csv_name), ?_, ?_⟩
  · exact List.mem_map_of_mem _ hsession
  · have hstep := List.mem_map_of_mem (fun tbl =>
      let csv_name := pyJoin ['_'] [pyUpper ab, session, tbl] ++ toL ".csv"
      let p := path_join (path_join ab session) csv_name
      if isfile p then Action.load p else Action.skip csv_name) htbl
    simp only [hmiss] at hstep
    simpa using hstep

/-- Witness for C8: the Illinois driver over a one-session directory where
every csv is missing. -/
theorem C8_witness :
    driverContract sabIL ldOne isfileNone (toL "illinois") (toL "IL") :=
  C8_batch_driver_order sabIL ldOne isfileNone (toL "illinois") (toL "IL")
    (by decide)

end StatePolitics
